import Mathlib

/-!
Shallow embedding of the Fusion 360 batch exporter (`f3dexporter.py`).

The source is a single-threaded traversal engine.  All external effects
(document service, export service, progress dialog) are write-only from the
core's point of view: the core never branches on anything it wrote.  We
therefore embed the effectful functions in writer style: each returns its
`Counter` result together with the list of externally observable events it
emitted, in order.  External behaviour the core *reads* (does an export call
succeed, does a file's visitation raise, was cancel pressed) is supplied by
an `Env` of oracles.

Machine words are `Nat` reduced mod `2 ^ 32` where overflow matters.
-/

/-- 32-bit truncation, `n % 2^32`. -/
def w32 (n : Nat) : Nat := n % 4294967296

/-- 32-bit right rotation (inputs are 32-bit words). -/
def rotr (n x : Nat) : Nat := w32 ((x >>> n) ||| (x <<< (32 - n)))

/-- Big-endian bytes of a 32-bit word. -/
def toBytes4 (x : Nat) : List Nat :=
  [(x >>> 24) &&& 255, (x >>> 16) &&& 255, (x >>> 8) &&& 255, x &&& 255]

/-- Big-endian bytes of a 64-bit length field. -/
def toBytes8 (x : Nat) : List Nat :=
  [(x >>> 56) &&& 255, (x >>> 48) &&& 255, (x >>> 40) &&& 255, (x >>> 32) &&& 255,
   (x >>> 24) &&& 255, (x >>> 16) &&& 255, (x >>> 8) &&& 255, x &&& 255]

/-- The eight working variables of the SHA-256 compression function. -/
structure Sha256State where
  a : Nat
  b : Nat
  c : Nat
  d : Nat
  e : Nat
  f : Nat
  g : Nat
  h : Nat
deriving Repr, DecidableEq

/-- SHA-256 initial hash value (FIPS 180-4, in decimal). -/
def sha256Init : Sha256State :=
  ⟨1779033703, 3144134277, 1013904242, 2773480762,
   1359893119, 2600822924, 528734635, 1541459225⟩

/-- SHA-256 round constants (FIPS 180-4, in decimal). -/
def sha256K : List Nat :=
  [1116352408, 1899447441, 3049323471, 3921009573, 961987163,
   1508970993, 2453635748, 2870763221, 3624381080, 310598401,
   607225278, 1426881987, 1925078388, 2162078206, 2614888103,
   3248222580, 3835390401, 4022224774, 264347078, 604807628,
   770255983, 1249150122, 1555081692, 1996064986, 2554220882,
   2821834349, 2952996808, 3210313671, 3336571891, 3584528711,
   113926993, 338241895, 666307205, 773529912, 1294757372,
   1396182291, 1695183700, 1986661051, 2177026350, 2456956037,
   2730485921, 2820302411, 3259730800, 3345764771, 3516065817,
   3600352804, 4094571909, 275423344, 430227734, 506948616,
   659060556, 883997877, 958139571, 1322822218, 1537002063,
   1747873779, 1955562222, 2024104815, 2227730452, 2361852424,
   2428436474, 2756734187, 3204031479, 3329325298]

/-- Pack big-endian bytes into 32-bit words (16 words per 64-byte chunk). -/
def toWords : List Nat → List Nat
  | b0 :: b1 :: b2 :: b3 :: rest =>
      ((b0 <<< 24) + (b1 <<< 16) + (b2 <<< 8) + b3) :: toWords rest
  | _ => []

/-- One extension step of the SHA-256 message schedule. -/
def schedExtend (w : Array Nat) : Array Nat :=
  let i := w.size
  let w15 := w.getD (i - 15) 0
  let w2 := w.getD (i - 2) 0
  let s0 := rotr 7 w15 ^^^ rotr 18 w15 ^^^ (w15 >>> 3)
  let s1 := rotr 17 w2 ^^^ rotr 19 w2 ^^^ (w2 >>> 10)
  w.push (w32 (w.getD (i - 16) 0 + s0 + w.getD (i - 7) 0 + s1))

/-- The 64-word message schedule of one chunk. -/
def schedule (chunk : List Nat) : List Nat :=
  ((List.range 48).foldl (fun arr _ => schedExtend arr) (toWords chunk).toArray).toList

/-- One SHA-256 compression round. -/
def compressRound (s : Sha256State) (kw : Nat × Nat) : Sha256State :=
  let S1 := rotr 6 s.e ^^^ rotr 11 s.e ^^^ rotr 25 s.e
  let ch := (s.e &&& s.f) ^^^ ((s.e ^^^ 0xffffffff) &&& s.g)
  let temp1 := w32 (s.h + S1 + ch + kw.1 + kw.2)
  let S0 := rotr 2 s.a ^^^ rotr 13 s.a ^^^ rotr 22 s.a
  let maj := (s.a &&& s.b) ^^^ (s.a &&& s.c) ^^^ (s.b &&& s.c)
  let temp2 := w32 (S0 + maj)
  ⟨w32 (temp1 + temp2), s.a, s.b, s.c, w32 (s.d + temp1), s.e, s.f, s.g⟩

/-- Compress one 64-byte chunk into the running hash state. -/
def compressChunk (st : Sha256State) (chunk : List Nat) : Sha256State :=
  let ws := schedule chunk
  let r := (sha256K.zip ws).foldl compressRound st
  ⟨w32 (st.a + r.a), w32 (st.b + r.b), w32 (st.c + r.c), w32 (st.d + r.d),
   w32 (st.e + r.e), w32 (st.f + r.f), w32 (st.g + r.g), w32 (st.h + r.h)⟩

/-- SHA-256 padding: append 0x80, zeros to 56 mod 64, then the bit length. -/
def padMessage (msg : List Nat) : List Nat :=
  let len := msg.length
  msg ++ 0x80 :: (List.replicate ((119 - len % 64) % 64) 0 ++ toBytes8 (len * 8))

/-- Split a byte list into 64-byte chunks. -/
def chunks64 : List Nat → List (List Nat)
  | [] => []
  | x :: rest => (x :: rest).take 64 :: chunks64 ((x :: rest).drop 64)
termination_by l => l.length
decreasing_by simp [List.length_drop]; omega

/-- SHA-256 digest of a byte string, as 32 bytes. -/
def sha256Bytes (msg : List Nat) : List Nat :=
  let st := (chunks64 (padMessage msg)).foldl compressChunk sha256Init
  toBytes4 st.a ++ toBytes4 st.b ++ toBytes4 st.c ++ toBytes4 st.d ++
  toBytes4 st.e ++ toBytes4 st.f ++ toBytes4 st.g ++ toBytes4 st.h

/-- Lower-case hex digit for a value below 16. -/
def hexChar (n : Nat) : Char :=
  if n < 10 then Char.ofNat (48 + n) else Char.ofNat (87 + n)

/-- Two hex digits of one byte. -/
def byteToHex (b : Nat) : List Char := [hexChar ((b >>> 4) &&& 15), hexChar (b &&& 15)]

/-- `hashlib.sha256(...).hexdigest()` as a character list (64 hex chars). -/
def hexdigest (msg : List Nat) : List Char := ((sha256Bytes msg).map byteToHex).flatten

/-- UTF-8 encoding of one character (models Python `str.encode()` per char). -/
def charUtf8 (c : Char) : List Nat :=
  let v := c.toNat
  if v < 0x80 then [v]
  else if v < 0x800 then [0xc0 ||| (v >>> 6), 0x80 ||| (v &&& 0x3f)]
  else if v < 0x10000 then
    [0xe0 ||| (v >>> 12), 0x80 ||| ((v >>> 6) &&& 0x3f), 0x80 ||| (v &&& 0x3f)]
  else
    [0xf0 ||| (v >>> 18), 0x80 ||| ((v >>> 12) &&& 0x3f),
     0x80 ||| ((v >>> 6) &&& 0x3f), 0x80 ||| (v &&& 0x3f)]

/-- UTF-8 encoding of a string (models Python `name.encode()`). -/
def utf8Bytes (s : String) : List Nat := (s.data.map charUtf8).flatten

/-- The characters matched by the source's regex `[:\\/*?<>|]`. -/
def isForbidden (c : Char) : Bool :=
  c = ':' || c = '\\' || c = '/' || c = '*' || c = '?' || c = '<' || c = '>' || c = '|'

/-- One character of `re.sub(r'[:\\/*?<>|]', ' ', name)`. -/
def replaceChar (c : Char) : Char := if isForbidden c then ' ' else c

/-- `sanitize_filename` from the source: replace forbidden characters by
spaces; if anything changed, append `_` plus the first 8 hex characters of
the SHA-256 of the original name. -/
def sanitize_filename (name : String) : String :=
  let with_replacement := String.mk (name.data.map replaceChar)
  if name = with_replacement then name
  else
    let hash := String.mk ((hexdigest (utf8Bytes name)).take 8)
    with_replacement ++ "_" ++ hash

/-- `class Format(Enum)`: the two export formats. -/
inductive Format where
  | F3D
  | STEP
deriving Repr, DecidableEq

/-- The `value` of a `Format` member (its lowercase tag / file extension). -/
def Format.value : Format → String
  | .F3D => "f3d"
  | .STEP => "step"

/-- Display name of a `Format` member (Python `str(format)`). -/
def Format.str : Format → String
  | .F3D => "Format.F3D"
  | .STEP => "Format.STEP"

/-- `Counter` dataclass: {saved, skipped, errored}. -/
structure Counter where
  saved : Nat := 0
  skipped : Nat := 0
  errored : Nat := 0
deriving Repr, DecidableEq

/-- `Counter.__add__` (and `__iadd__`, which computes the same sums). -/
def Counter.add (x y : Counter) : Counter :=
  ⟨x.saved + y.saved, x.skipped + y.skipped, x.errored + y.errored⟩

instance : Add Counter := ⟨Counter.add⟩

/-- A filesystem path, as the list of its segments (Python `pathlib.Path`). -/
abbrev FsPath := List String

/-- `Ctx` NamedTuple.  The `app` handle is the external host session; its
observable behaviour lives in `Env` instead, so it is not a field here. -/
structure Ctx where
  folder : FsPath
  formats : List Format
  projects : List String
deriving Repr, DecidableEq

/-- `Ctx.extend`: path-join a (sanitized) segment onto the output folder. -/
def Ctx.extend (c : Ctx) (other : String) : Ctx :=
  { c with folder := c.folder ++ [other] }

/-- A data file node of the host hierarchy (name, version, extension). -/
structure File where
  name : String
  versionNumber : Nat
  fileExtension : String
deriving Repr, DecidableEq

/-- Externally observable events, in emission order: underlying document
opens/closes, successful export writes, progress-dialog message updates and
progress increments.  (Log-sink writes are not modelled.) -/
inductive Event where
  | opened (fileName : String)
  | closed (fileName : String)
  | exported (path : FsPath)
  | message (text : String)
  | progressed
deriving Repr, DecidableEq

/-- Oracles describing the external world's responses: whether the export
service succeeds for a given file and format, whether the visitation of a
given file raises an unexpected exception (outside the per-format `try`),
and the progress dialog's cancellation flag. -/
structure Env where
  exportOk : File → Format → Bool
  fileRaises : File → Bool
  wasCancelled : Bool

/-- `LazyDocument`: wraps one file; `isOpen` models `_document is not None`. -/
structure LazyDocument where
  file : File
  isOpen : Bool
deriving Repr, DecidableEq

/-- `LazyDocument.open` (named `openDoc` here because `open` is a Lean
keyword): no-op if already open, else performs the underlying open. -/
def LazyDocument.openDoc (d : LazyDocument) : LazyDocument × List Event :=
  if d.isOpen then (d, [])
  else ({ d with isOpen := true }, [.opened d.file.name])

/-- `LazyDocument.close`: no-op if never opened, else performs the
underlying close (discarding changes).  The Python `close` does not reset
`_document`, so `isOpen` is left as is. -/
def LazyDocument.close (d : LazyDocument) : LazyDocument × List Event :=
  if d.isOpen then (d, [.closed d.file.name]) else (d, [])

/-- `export_filename`: `ctx.folder / f'{sanitized}.{format.value}'`. -/
def export_filename (ctx : Ctx) (format : Format) (file : File) : FsPath :=
  let sanitized := sanitize_filename file.name
  ctx.folder ++ [sanitized ++ "." ++ format.value]

/-- `export_file`: open the document (lazily), then attempt the export.
`ok` is the export service's response (`em.execute` succeeding or raising);
`none` models the raised exception propagating to the caller.  The
skip-if-exists check is commented out in the source and hence absent. -/
def export_file (ctx : Ctx) (format : Format) (file : File) (ok : Bool)
    (doc : LazyDocument) : Option Counter × LazyDocument × List Event :=
  let output_path := export_filename ctx format file
  let (doc, ev) := doc.openDoc
  if ok then (some { saved := 1 }, doc, ev ++ [.exported output_path])
  else (none, doc, ev)

/-- The `for format in ctx.formats` loop of `visit_file`: per format, set the
progress message; unless dry-run, try the export, adding its Counter on
success and incrementing `errored` on exception. -/
def exportLoop (eo : Format → Bool) (ctx : Ctx) (file : File)
    (is_dry_run : Bool) :
    List Format → Counter → LazyDocument → Counter × LazyDocument × List Event
  | [], counter, doc => (counter, doc, [])
  | format :: rest, counter, doc =>
    let msgEv : List Event :=
      [.message ("Exporting " ++ file.name ++ " as " ++ format.str ++ "...")]
    if is_dry_run then
      let (c, d, evs) := exportLoop eo ctx file is_dry_run rest counter doc
      (c, d, msgEv ++ evs)
    else
      match export_file ctx format file (eo format) doc with
      | (some k, doc, ev1) =>
        let (c, d, evs) := exportLoop eo ctx file is_dry_run rest (counter + k) doc
        (c, d, msgEv ++ ev1 ++ evs)
      | (none, doc, ev1) =>
        let (c, d, evs) := exportLoop eo ctx file is_dry_run rest
          { counter with errored := counter.errored + 1 } doc
        (c, d, msgEv ++ ev1 ++ evs)

/-- `visit_file`: skip non-`f3d` files outright; otherwise run the format
loop on a fresh lazy document and close it at the end.  `eo` is the export
service's per-format response for this file. -/
def visit_file (eo : Format → Bool) (ctx : Ctx) (file : File)
    (is_dry_run : Bool) : Counter × List Event :=
  if file.fileExtension ≠ "f3d" then ({ skipped := 1 }, [])
  else
    let doc : LazyDocument := ⟨file, false⟩
    let (counter, doc, evs) := exportLoop eo ctx file is_dry_run ctx.formats {} doc
    let (_, ev2) := doc.close
    (counter, evs ++ ev2)

/-- A folder node of the host hierarchy. -/
inductive Folder where
  | mk (name : String) (dataFiles : List File) (dataFolders : List Folder)
deriving Repr

def Folder.name : Folder → String
  | .mk n _ _ => n

def Folder.dataFiles : Folder → List File
  | .mk _ fs _ => fs

def Folder.dataFolders : Folder → List Folder
  | .mk _ _ sub => sub

/-- The `for file in folder.dataFiles` loop of `visit_folder`: each file's
visitation either returns normally (its Counter is added) or raises an
unexpected exception, which is caught and counted as one `errored`.  The
partial effects of a raising visitation are not modelled. -/
def visit_files (env : Env) (ctx : Ctx) (is_dry_run : Bool) :
    List File → Counter → Counter × List Event
  | [], counter => (counter, [])
  | file :: rest, counter =>
    if env.fileRaises file then
      let (c, evs) := visit_files env ctx is_dry_run rest
        { counter with errored := counter.errored + 1 }
      (c, evs)
    else
      let (cf, evf) := visit_file (env.exportOk file) ctx file is_dry_run
      let (c, evs) := visit_files env ctx is_dry_run rest (counter + cf)
      (c, evf ++ evs)

mutual

/-- `visit_folder`: return the zero Counter at once if cancelled; else set
the progress message, extend the output path with the sanitized folder name,
visit the files, advance the progress bar by one, then recurse into the
sub-folders. -/
def visit_folder (env : Env) (ctx : Ctx) (folder : Folder)
    (is_dry_run : Bool) : Counter × List Event :=
  if env.wasCancelled then ({}, [])
  else
    match folder with
    | .mk name dataFiles dataFolders =>
      let new_ctx := ctx.extend (sanitize_filename name)
      let (c1, ev1) := visit_files env new_ctx is_dry_run dataFiles {}
      let (c2, ev2) := visit_subfolders env new_ctx is_dry_run dataFolders c1
      (c2, Event.message ("Visiting folder " ++ name) :: (ev1 ++ Event.progressed :: ev2))

/-- The `for sub_folder in folder.dataFolders` loop of `visit_folder`. -/
def visit_subfolders (env : Env) (ctx : Ctx) (is_dry_run : Bool) :
    List Folder → Counter → Counter × List Event
  | [], counter => (counter, [])
  | sub :: rest, counter =>
    let (cs, evs) := visit_folder env ctx sub is_dry_run
    let (c, evr) := visit_subfolders env ctx is_dry_run rest (counter + cs)
    (c, evs ++ evr)

end

/-- A project node of the host hierarchy (`project.rootFolder.dataFolders`
flattened into `rootFolders`). -/
structure DataProject where
  name : String
  rootFolders : List Folder

/-- The `for project in ctx.app.data.dataProjects` loop of `main`: the first
project whose name is in `ctx.projects` has its top-level folders visited
with `is_dry_run = false`, then the loop `break`s. -/
def mainLoop (env : Env) (ctx : Ctx) : List DataProject → Counter × List Event
  | [] => ({}, [])
  | p :: rest =>
    if p.name ∈ ctx.projects then
      let (c, evs) := visit_subfolders env ctx false p.rootFolders {}
      (c, Event.message ("Exporting from " ++ p.name ++ " Project") :: evs)
    else mainLoop env ctx rest

namespace Exporter

/-- `main`: prepare output directory and log (filesystem effects, elided),
then run the project loop.  The dry-run argument of every folder visit is
hardcoded to `False` in the source.  (Namespaced because a top-level `main`
is reserved by Lean.) -/
def main (env : Env) (ctx : Ctx) (dataProjects : List DataProject) :
    Counter × List Event :=
  mainLoop env ctx dataProjects

end Exporter

/-- The orchestrator with the dry-run flag as an explicit parameter instead
of the hardcoded `False`; used to state what `main` fixes. -/
def mainLoopWithFlag (env : Env) (ctx : Ctx) (is_dry_run : Bool) :
    List DataProject → Counter × List Event
  | [] => ({}, [])
  | p :: rest =>
    if p.name ∈ ctx.projects then
      let (c, evs) := visit_subfolders env ctx is_dry_run p.rootFolders {}
      (c, Event.message ("Exporting from " ++ p.name ++ " Project") :: evs)
    else mainLoopWithFlag env ctx is_dry_run rest

/-- `main` generalized over the dry-run flag. -/
def mainWithFlag (env : Env) (ctx : Ctx) (dataProjects : List DataProject)
    (is_dry_run : Bool) : Counter × List Event :=
  mainLoopWithFlag env ctx is_dry_run dataProjects

/-- Is an event an underlying document open? -/
def Event.isOpened : Event → Bool
  | .opened _ => true
  | _ => false

/-- Is an event an underlying document close? -/
def Event.isClosed : Event → Bool
  | .closed _ => true
  | _ => false

/-- Number of underlying document opens in an event trace. -/
def countOpened (evs : List Event) : Nat := evs.countP Event.isOpened

/-- Number of underlying document closes in an event trace. -/
def countClosed (evs : List Event) : Nat := evs.countP Event.isClosed

/-- Sum of a list of Counters. -/
def sumCounters (l : List Counter) : Counter := l.foldr (· + ·) {}

/-- Lowercase hex digit predicate. -/
def isHexDigit (c : Char) : Bool := ('0' ≤ c && c ≤ '9') || ('a' ≤ c && c ≤ 'f')

/-- The Counter one file contributes to its folder's loop: one `errored` if
its visitation raises, else whatever `visit_file` returns for it. -/
def fileContrib (env : Env) (ctx : Ctx) (is_dry_run : Bool) (f : File) : Counter :=
  if env.fileRaises f then ⟨0, 0, 1⟩
  else (visit_file (env.exportOk f) ctx f is_dry_run).1

/-! ### Helper lemmas -/

theorem Counter.add_mk (a b e a' b' e' : Nat) :
    Counter.mk a b e + Counter.mk a' b' e' = ⟨a + a', b + b', e + e'⟩ := rfl

theorem Counter.add_saved (x y : Counter) : (x + y).saved = x.saved + y.saved := rfl

theorem Counter.add_skipped (x y : Counter) : (x + y).skipped = x.skipped + y.skipped := rfl

theorem Counter.add_errored (x y : Counter) : (x + y).errored = x.errored + y.errored := rfl

theorem counterAdd_comm (x y : Counter) : x + y = y + x := by
  cases x; cases y; simp [Counter.add_mk, Counter.mk.injEq]; omega

theorem counterAdd_assoc (x y z : Counter) : x + y + z = x + (y + z) := by
  cases x; cases y; cases z; simp [Counter.add_mk, Counter.mk.injEq]; omega

theorem counterAdd_zero (x : Counter) : x + Counter.mk 0 0 0 = x := by
  cases x; rfl

theorem counterZero_add (x : Counter) : Counter.mk 0 0 0 + x = x := by
  cases x; simp [Counter.add_mk]

theorem counterErrored_succ (x : Counter) :
    { x with errored := x.errored + 1 } = x + Counter.mk 0 0 1 := by
  cases x; simp [Counter.add_mk]

theorem countP_not_add {α : Type} (p : α → Bool) :
    ∀ l : List α, l.countP p + l.countP (fun a => !p a) = l.length := by
  intro l
  induction l with
  | nil => simp
  | cons x xs ih => cases hx : p x <;> simp [List.countP_cons, hx] <;> omega

theorem openDoc_eq (d : LazyDocument) :
    d.openDoc = (⟨d.file, true⟩, if d.isOpen then [] else [Event.opened d.file.name]) := by
  cases d with | mk f o => cases o <;> simp [LazyDocument.openDoc]

theorem close_eq (d : LazyDocument) :
    d.close = (d, if d.isOpen then [Event.closed d.file.name] else []) := by
  cases d with | mk f o => cases o <;> simp [LazyDocument.close]

theorem export_file_eq (ctx : Ctx) (fmt : Format) (file : File) (ok : Bool)
    (doc : LazyDocument) :
    export_file ctx fmt file ok doc =
      ((if ok then some ⟨1, 0, 0⟩ else none), (⟨doc.file, true⟩ : LazyDocument),
        (if doc.isOpen then ([] : List Event) else [Event.opened doc.file.name]) ++
          (if ok then [Event.exported (export_filename ctx fmt file)] else [])) := by
  cases doc with | mk f o => cases o <;> cases ok <;> simp [export_file, LazyDocument.openDoc]

theorem exportLoop_counter (eo : Format → Bool) (ctx : Ctx) (file : File) :
    ∀ (l : List Format) (c : Counter) (doc : LazyDocument),
      (exportLoop eo ctx file false l c doc).1 =
        ⟨c.saved + l.countP eo, c.skipped, c.errored + l.countP (fun f => !eo f)⟩ := by
  intro l
  induction l with
  | nil => intro c doc; simp [exportLoop]
  | cons f rest ih =>
    intro c doc
    cases hf : eo f <;>
      simp [exportLoop, export_file_eq, hf, ih, List.countP_cons,
        Counter.add_saved, Counter.add_skipped, Counter.add_errored,
        Counter.mk.injEq] <;> omega

theorem exportLoop_doc (eo : Format → Bool) (ctx : Ctx) (file : File) :
    ∀ (l : List Format) (c : Counter) (doc : LazyDocument),
      (exportLoop eo ctx file false l c doc).2.1 =
        if l.isEmpty then doc else ⟨doc.file, true⟩ := by
  intro l
  induction l with
  | nil => intro c doc; simp [exportLoop]
  | cons f rest ih =>
    intro c doc
    cases hf : eo f <;> simp [exportLoop, export_file_eq, hf, ih, ite_self]

theorem countOpened_nil : countOpened [] = 0 := rfl

theorem countOpened_append (a b : List Event) :
    countOpened (a ++ b) = countOpened a + countOpened b :=
  List.countP_append _ _ _

theorem countOpened_cons (e : Event) (l : List Event) :
    countOpened (e :: l) = (if Event.isOpened e then 1 else 0) + countOpened l := by
  simp [countOpened, List.countP_cons]; omega

theorem countClosed_nil : countClosed [] = 0 := rfl

theorem countClosed_append (a b : List Event) :
    countClosed (a ++ b) = countClosed a + countClosed b :=
  List.countP_append _ _ _

theorem countClosed_cons (e : Event) (l : List Event) :
    countClosed (e :: l) = (if Event.isClosed e then 1 else 0) + countClosed l := by
  simp [countClosed, List.countP_cons]; omega

theorem exportLoop_opened (eo : Format → Bool) (ctx : Ctx) (file : File) :
    ∀ (l : List Format) (c : Counter) (doc : LazyDocument),
      countOpened (exportLoop eo ctx file false l c doc).2.2 =
        if l.isEmpty || doc.isOpen then 0 else 1 := by
  intro l
  induction l with
  | nil => intro c doc; simp [exportLoop, countOpened_nil]
  | cons f rest ih =>
    intro c doc
    cases doc with | mk df o =>
      cases o <;> cases hf : eo f <;>
        simp [exportLoop, export_file_eq, hf, ih, countOpened_append,
          countOpened_cons, countOpened_nil, Event.isOpened]

theorem exportLoop_closed (eo : Format → Bool) (ctx : Ctx) (file : File)
    (dry : Bool) :
    ∀ (l : List Format) (c : Counter) (doc : LazyDocument),
      countClosed (exportLoop eo ctx file dry l c doc).2.2 = 0 := by
  intro l
  induction l with
  | nil => intro c doc; simp [exportLoop, countClosed_nil]
  | cons f rest ih =>
    intro c doc
    cases dry <;> cases doc with | mk df o =>
      cases o <;> cases hf : eo f <;>
        simp [exportLoop, export_file_eq, hf, ih, countClosed_append,
          countClosed_cons, countClosed_nil, Event.isClosed]

theorem exportLoop_dry (eo : Format → Bool) (ctx : Ctx) (file : File) :
    ∀ (l : List Format) (c : Counter) (doc : LazyDocument),
      exportLoop eo ctx file true l c doc =
        (c, doc, l.map fun f =>
          Event.message ("Exporting " ++ file.name ++ " as " ++ f.str ++ "...")) := by
  intro l
  induction l with
  | nil => intro c doc; simp [exportLoop]
  | cons f rest ih => intro c doc; simp [exportLoop, ih]

theorem visit_file_eq_of_eligible (eo : Format → Bool) (ctx : Ctx) (file : File)
    (dry : Bool) (hext : file.fileExtension = "f3d") :
    visit_file eo ctx file dry =
      ((exportLoop eo ctx file dry ctx.formats ⟨0, 0, 0⟩ ⟨file, false⟩).1,
        (exportLoop eo ctx file dry ctx.formats ⟨0, 0, 0⟩ ⟨file, false⟩).2.2 ++
          ((exportLoop eo ctx file dry ctx.formats ⟨0, 0, 0⟩ ⟨file, false⟩).2.1.close).2) := by
  rcases hE : exportLoop eo ctx file dry ctx.formats ⟨0, 0, 0⟩ ⟨file, false⟩ with ⟨c, d, evs⟩
  rcases hC : d.close with ⟨d2, ev2⟩
  simp [visit_file, hext, hE, hC]

theorem visit_file_ineligible (eo : Format → Bool) (ctx : Ctx) (file : File)
    (dry : Bool) (hext : file.fileExtension ≠ "f3d") :
    visit_file eo ctx file dry = (⟨0, 1, 0⟩, []) := by
  simp [visit_file, hext]

theorem visit_file_counter (eo : Format → Bool) (ctx : Ctx) (file : File)
    (hext : file.fileExtension = "f3d") :
    (visit_file eo ctx file false).1 =
      ⟨ctx.formats.countP eo, 0, ctx.formats.countP (fun f => !eo f)⟩ := by
  rw [visit_file_eq_of_eligible eo ctx file false hext]
  simp [exportLoop_counter]

theorem visit_file_dry (eo : Format → Bool) (ctx : Ctx) (file : File)
    (hext : file.fileExtension = "f3d") :
    visit_file eo ctx file true =
      (⟨0, 0, 0⟩, ctx.formats.map fun f =>
        Event.message ("Exporting " ++ file.name ++ " as " ++ f.str ++ "...")) := by
  rw [visit_file_eq_of_eligible eo ctx file true hext]
  simp [exportLoop_dry, close_eq, LazyDocument.close]

theorem countOpened_map_message (g : Format → String) (l : List Format) :
    countOpened (l.map fun f => Event.message (g f)) = 0 := by
  induction l with
  | nil => rfl
  | cons f rest ih => simp [countOpened_cons, Event.isOpened, ih]

theorem countClosed_map_message (g : Format → String) (l : List Format) :
    countClosed (l.map fun f => Event.message (g f)) = 0 := by
  induction l with
  | nil => rfl
  | cons f rest ih => simp [countClosed_cons, Event.isClosed, ih]

theorem visit_file_opened (eo : Format → Bool) (ctx : Ctx) (file : File)
    (dry : Bool) (hext : file.fileExtension = "f3d") :
    countOpened (visit_file eo ctx file dry).2 =
      if dry || ctx.formats.isEmpty then 0 else 1 := by
  cases dry with
  | true =>
    rw [visit_file_dry eo ctx file hext]
    simp [countOpened_map_message]
  | false =>
    rw [visit_file_eq_of_eligible eo ctx file false hext]
    rw [countOpened_append, exportLoop_opened, exportLoop_doc]
    cases hl : ctx.formats.isEmpty <;>
      simp [hl, close_eq, countOpened_cons, countOpened_nil, Event.isOpened]

theorem visit_file_closed (eo : Format → Bool) (ctx : Ctx) (file : File)
    (dry : Bool) (hext : file.fileExtension = "f3d") :
    countClosed (visit_file eo ctx file dry).2 =
      if dry || ctx.formats.isEmpty then 0 else 1 := by
  cases dry with
  | true =>
    rw [visit_file_dry eo ctx file hext]
    simp [countClosed_map_message]
  | false =>
    rw [visit_file_eq_of_eligible eo ctx file false hext]
    rw [countClosed_append, exportLoop_closed, exportLoop_doc]
    cases hl : ctx.formats.isEmpty <;>
      simp [hl, close_eq, countClosed_cons, countClosed_nil, Event.isClosed]

theorem sumCounters_nil : sumCounters [] = ⟨0, 0, 0⟩ := rfl

theorem sumCounters_cons (x : Counter) (l : List Counter) :
    sumCounters (x :: l) = x + sumCounters l := rfl

theorem sumCounters_append (a b : List Counter) :
    sumCounters (a ++ b) = sumCounters a + sumCounters b := by
  induction a with
  | nil => simp [sumCounters_nil, counterZero_add]
  | cons x xs ih => simp [sumCounters_cons, ih, counterAdd_assoc]

theorem visit_files_counter (env : Env) (ctx : Ctx) (dry : Bool) :
    ∀ (files : List File) (c : Counter),
      (visit_files env ctx dry files c).1 =
        c + sumCounters (files.map (fileContrib env ctx dry)) := by
  intro files
  induction files with
  | nil => intro c; simp [visit_files, sumCounters_nil, counterAdd_zero]
  | cons f rest ih =>
    intro c
    cases hr : env.fileRaises f
    · rcases hV : visit_file (env.exportOk f) ctx f dry with ⟨cf, evf⟩
      simp [visit_files, hr, hV, ih, sumCounters_cons, fileContrib,
        counterAdd_assoc]
    · simp [visit_files, hr, ih, sumCounters_cons, fileContrib,
        counterErrored_succ, counterAdd_assoc]

theorem visit_subfolders_counter (env : Env) (ctx : Ctx) (dry : Bool) :
    ∀ (subs : List Folder) (c : Counter),
      (visit_subfolders env ctx dry subs c).1 =
        c + sumCounters (subs.map fun s => (visit_folder env ctx s dry).1) := by
  intro subs
  induction subs with
  | nil => intro c; simp [visit_subfolders, sumCounters_nil, counterAdd_zero]
  | cons s rest ih =>
    intro c
    rcases hV : visit_folder env ctx s dry with ⟨cs, evs⟩
    simp [visit_subfolders, hV, ih, sumCounters_cons, counterAdd_assoc]

theorem visit_folder_cancelled (env : Env) (ctx : Ctx) (folder : Folder)
    (dry : Bool) (hc : env.wasCancelled = true) :
    visit_folder env ctx folder dry = (⟨0, 0, 0⟩, []) := by
  cases folder with
  | mk name files subs => simp [visit_folder, hc]

theorem visit_folder_counter (env : Env) (ctx : Ctx) (folder : Folder)
    (dry : Bool) (hc : env.wasCancelled = false) :
    (visit_folder env ctx folder dry).1 =
      sumCounters (folder.dataFiles.map
          (fileContrib env (ctx.extend (sanitize_filename folder.name)) dry)) +
        sumCounters (folder.dataFolders.map fun s =>
          (visit_folder env (ctx.extend (sanitize_filename folder.name)) s dry).1) := by
  cases folder with
  | mk name files subs =>
    rcases hF : visit_files env (ctx.extend (sanitize_filename name)) dry files ⟨0, 0, 0⟩
      with ⟨c1, ev1⟩
    rcases hS : visit_subfolders env (ctx.extend (sanitize_filename name)) dry subs c1
      with ⟨c2, ev2⟩
    have h1 : c1 = sumCounters (files.map
        (fileContrib env (ctx.extend (sanitize_filename name)) dry)) := by
      have := visit_files_counter env (ctx.extend (sanitize_filename name)) dry files ⟨0, 0, 0⟩
      rw [hF] at this
      simpa [counterZero_add] using this
    have h2 : c2 = c1 + sumCounters (subs.map fun s =>
        (visit_folder env (ctx.extend (sanitize_filename name)) s dry).1) := by
      have := visit_subfolders_counter env (ctx.extend (sanitize_filename name)) dry subs c1
      rw [hS] at this
      simpa using this
    simp [visit_folder, hc, Folder.name, Folder.dataFiles, Folder.dataFolders, hF, hS]
    rw [h2, h1]

theorem String_mk_data (s : String) : String.mk s.data = s := rfl

theorem replaceChar_eq_self (c : Char) (h : isForbidden c = false) :
    replaceChar c = c := by
  simp [replaceChar, h]

theorem replaceChar_forbidden (c : Char) (h : isForbidden c = true) :
    replaceChar c = ' ' := by
  simp [replaceChar, h]

theorem map_replaceChar_id (l : List Char) (h : ∀ c ∈ l, isForbidden c = false) :
    l.map replaceChar = l := by
  induction l with
  | nil => rfl
  | cons x xs ih =>
    simp [replaceChar_eq_self x (h x (by simp)),
      ih fun c hc => h c (by simp [hc])]

theorem map_replaceChar_ne (l : List Char) (c : Char) (hc : c ∈ l)
    (hf : isForbidden c = true) : l.map replaceChar ≠ l := by
  induction l with
  | nil => cases hc
  | cons x xs ih =>
    intro he
    simp only [List.map_cons, List.cons.injEq] at he
    rcases List.mem_cons.mp hc with rfl | hmem
    · have hsp : c = ' ' := by
        have h1 := he.1
        rw [replaceChar_forbidden c hf] at h1
        exact h1.symm
      rw [hsp] at hf
      exact absurd hf (by decide)
    · exact ih hmem he.2

theorem sanitize_filename_clean (name : String)
    (h : ∀ c ∈ name.data, isForbidden c = false) :
    sanitize_filename name = name := by
  simp [sanitize_filename, map_replaceChar_id name.data h, String_mk_data]

theorem sanitize_filename_dirty (name : String) (c : Char) (hc : c ∈ name.data)
    (hf : isForbidden c = true) :
    sanitize_filename name =
      String.mk (name.data.map replaceChar) ++ "_" ++
        String.mk ((hexdigest (utf8Bytes name)).take 8) := by
  have hne : name ≠ String.mk (name.data.map replaceChar) := by
    intro he
    have hdata : name.data.map replaceChar = name.data := by
      conv_rhs => rw [he]
    exact map_replaceChar_ne name.data c hc hf hdata
  simp [sanitize_filename, hne]

theorem sha256Bytes_length (m : List Nat) : (sha256Bytes m).length = 32 := by
  simp [sha256Bytes, toBytes4]

theorem flatten_byteToHex_length (l : List Nat) :
    ((l.map byteToHex).flatten).length = 2 * l.length := by
  induction l with
  | nil => rfl
  | cons x xs ih => simp [byteToHex, ih]; omega

theorem hexdigest_length (m : List Nat) : (hexdigest m).length = 64 := by
  rw [hexdigest, flatten_byteToHex_length, sha256Bytes_length]

theorem hexChar_isHex (n : Nat) (h : n < 16) : isHexDigit (hexChar n) = true := by
  interval_cases n <;> decide

theorem byteToHex_isHex (b : Nat) (c : Char) (hc : c ∈ byteToHex b) :
    isHexDigit c = true := by
  simp only [byteToHex, List.mem_cons, List.not_mem_nil, or_false] at hc
  rcases hc with h | h <;> subst h <;> apply hexChar_isHex
  · have := Nat.and_le_right (n := b >>> 4) (m := 15); omega
  · have := Nat.and_le_right (n := b) (m := 15); omega

theorem hexdigest_isHex (m : List Nat) (c : Char) (hc : c ∈ hexdigest m) :
    isHexDigit c = true := by
  simp only [hexdigest, List.mem_flatten, List.mem_map] at hc
  rcases hc with ⟨l, ⟨b, _, rfl⟩, hcl⟩
  exact byteToHex_isHex b c hcl

theorem mainLoop_eq_flag (env : Env) (ctx : Ctx) :
    ∀ dps, mainLoop env ctx dps = mainLoopWithFlag env ctx false dps := by
  intro dps
  induction dps with
  | nil => rfl
  | cons p rest ih =>
    by_cases hp : p.name ∈ ctx.projects <;>
      simp [mainLoop, mainLoopWithFlag, hp, ih]

theorem mainLoop_skip (env : Env) (ctx : Ctx) (q : DataProject)
    (dps : List DataProject) (hq : q.name ∉ ctx.projects) :
    mainLoop env ctx (q :: dps) = mainLoop env ctx dps := by
  simp [mainLoop, hq]

theorem mainLoop_match (env : Env) (ctx : Ctx) (p : DataProject)
    (dps : List DataProject) (hp : p.name ∈ ctx.projects) :
    mainLoop env ctx (p :: dps) =
      ((visit_subfolders env ctx false p.rootFolders ⟨0, 0, 0⟩).1,
        Event.message ("Exporting from " ++ p.name ++ " Project") ::
          (visit_subfolders env ctx false p.rootFolders ⟨0, 0, 0⟩).2) := by
  rcases hV : visit_subfolders env ctx false p.rootFolders ⟨0, 0, 0⟩ with ⟨c, evs⟩
  simp [mainLoop, hp, hV]

/-! ### Claim theorems -/

/-- Claim C1: for an eligible ('f3d') file with dry-run false, if the export
service fails for exactly one of the N requested formats and succeeds for the
others, `visit_file` returns `{saved = N-1, errored = 1, skipped = 0}` (the
failure does not abort the remaining formats), and the underlying document is
opened exactly once and closed exactly once. -/
theorem visitFile_per_format_isolation (eo : Format → Bool) (ctx : Ctx)
    (file : File) (hext : file.fileExtension = "f3d")
    (hone : ctx.formats.countP (fun f => !eo f) = 1) :
    (visit_file eo ctx file false).1 = ⟨ctx.formats.length - 1, 0, 1⟩ ∧
    countOpened (visit_file eo ctx file false).2 = 1 ∧
    countClosed (visit_file eo ctx file false).2 = 1 := by
  have hlen : ctx.formats.countP eo = ctx.formats.length - 1 := by
    have := countP_not_add eo ctx.formats
    omega
  have hne : ctx.formats.isEmpty = false := by
    cases hfmt : ctx.formats with
    | nil => rw [hfmt] at hone; simp at hone
    | cons a l => rfl
  refine ⟨?_, ?_, ?_⟩
  · rw [visit_file_counter eo ctx file hext, hone, hlen]
  · rw [visit_file_opened eo ctx file false hext, hne]; rfl
  · rw [visit_file_closed eo ctx file false hext, hne]; rfl

/-- Witness for C1: two formats, the STEP export fails, the F3D export
succeeds: one saved, one errored, no skip, one open, one close. -/
theorem visitFile_per_format_isolation_witness :
    ((⟨"Part A", 1, "f3d"⟩ : File).fileExtension = "f3d" ∧
      ([Format.F3D, Format.STEP] : List Format).countP
        (fun f => !(f == Format.F3D)) = 1) ∧
    (visit_file (fun f => f == Format.F3D) ⟨["out"], [Format.F3D, Format.STEP], []⟩
        ⟨"Part A", 1, "f3d"⟩ false).1 = ⟨1, 0, 1⟩ ∧
    countOpened (visit_file (fun f => f == Format.F3D)
        ⟨["out"], [Format.F3D, Format.STEP], []⟩ ⟨"Part A", 1, "f3d"⟩ false).2 = 1 ∧
    countClosed (visit_file (fun f => f == Format.F3D)
        ⟨["out"], [Format.F3D, Format.STEP], []⟩ ⟨"Part A", 1, "f3d"⟩ false).2 = 1 :=
  ⟨⟨by decide, by decide⟩,
    visitFile_per_format_isolation (fun f => f == Format.F3D)
      ⟨["out"], [Format.F3D, Format.STEP], []⟩ ⟨"Part A", 1, "f3d"⟩
      (by decide) (by decide)⟩

/-- Claim C2: `sanitize_filename` is pure and deterministic by construction
(it is a Lean function); a name with no forbidden character is returned
unchanged, and a name with at least one forbidden character becomes the
name with every forbidden character replaced by a space, followed by `_`
and a fixed 8-hex-character digest of the original name. -/
theorem sanitize_filename_spec (name : String) :
    (name.data.all (fun c => !isForbidden c) = true →
      sanitize_filename name = name) ∧
    (name.data.any isForbidden = true →
      sanitize_filename name =
        String.mk (name.data.map replaceChar) ++ "_" ++
          String.mk ((hexdigest (utf8Bytes name)).take 8) ∧
      (String.mk ((hexdigest (utf8Bytes name)).take 8)).length = 8 ∧
      ∀ c ∈ (hexdigest (utf8Bytes name)).take 8, isHexDigit c = true) := by
  constructor
  · intro h
    apply sanitize_filename_clean
    intro c hc
    have := List.all_eq_true.mp h c hc
    simpa using this
  · intro h
    obtain ⟨c, hc, hf⟩ := List.any_eq_true.mp h
    refine ⟨sanitize_filename_dirty name c hc hf, ?_, ?_⟩
    · show ((hexdigest (utf8Bytes name)).take 8).length = 8
      rw [List.length_take, hexdigest_length]
      decide
    · intro ch hch
      exact hexdigest_isHex _ ch (List.mem_of_mem_take hch)

/-- Witness for C2: a clean name is unchanged; `"a:b"` is rewritten to the
replaced stem plus an 8-hex-character hash suffix. -/
theorem sanitize_filename_spec_witness :
    ("ab".data.all (fun c => !isForbidden c) = true ∧
      sanitize_filename "ab" = "ab") ∧
    ("a:b".data.any isForbidden = true ∧
      (sanitize_filename "a:b" =
        String.mk ("a:b".data.map replaceChar) ++ "_" ++
          String.mk ((hexdigest (utf8Bytes "a:b")).take 8) ∧
      (String.mk ((hexdigest (utf8Bytes "a:b")).take 8)).length = 8 ∧
      ∀ c ∈ (hexdigest (utf8Bytes "a:b")).take 8, isHexDigit c = true)) :=
  ⟨⟨by decide, (sanitize_filename_spec "ab").1 (by decide)⟩,
    ⟨by decide, (sanitize_filename_spec "a:b").2 (by decide)⟩⟩

/-- Claim C4: if the cancellation flag is already set, `visit_folder`
returns the zero Counter at once, emitting no event: no file is visited,
no sub-folder is descended into. -/
theorem visitFolder_cancellation_short_circuit (env : Env) (ctx : Ctx)
    (folder : Folder) (dry : Bool) (hc : env.wasCancelled = true) :
    visit_folder env ctx folder dry = (⟨0, 0, 0⟩, []) :=
  visit_folder_cancelled env ctx folder dry hc

/-- Witness for C4. -/
theorem visitFolder_cancellation_short_circuit_witness :
    (Env.mk (fun _ _ => true) (fun _ => false) true).wasCancelled = true ∧
    visit_folder ⟨fun _ _ => true, fun _ => false, true⟩ ⟨["out"], [Format.F3D], []⟩
      (Folder.mk "top" [⟨"a", 1, "f3d"⟩] [Folder.mk "sub" [] []]) false =
      (⟨0, 0, 0⟩, []) :=
  ⟨by decide,
    visitFolder_cancellation_short_circuit ⟨fun _ _ => true, fun _ => false, true⟩
      ⟨["out"], [Format.F3D], []⟩
      (Folder.mk "top" [⟨"a", 1, "f3d"⟩] [Folder.mk "sub" [] []]) false (by decide)⟩

/-- Claim C5: for an eligible file the document handle is closed exactly as
often as it is opened (never left open, never double-closed), at most once,
and whenever a real (non-dry) run has at least one requested format the
underlying close happens exactly once — including runs where every export
errored. -/
theorem visitFile_close_discipline (eo : Format → Bool) (ctx : Ctx)
    (file : File) (dry : Bool) (hext : file.fileExtension = "f3d") :
    countClosed (visit_file eo ctx file dry).2 =
      countOpened (visit_file eo ctx file dry).2 ∧
    countClosed (visit_file eo ctx file dry).2 ≤ 1 ∧
    (dry = false → ctx.formats ≠ [] →
      countClosed (visit_file eo ctx file false).2 = 1) := by
  rw [visit_file_closed eo ctx file dry hext, visit_file_opened eo ctx file dry hext]
  refine ⟨rfl, ?_, ?_⟩
  · cases h : (dry || ctx.formats.isEmpty) <;> simp
  · intro _ hfmt
    rw [visit_file_closed eo ctx file false hext]
    have hne : ctx.formats.isEmpty = false := by
      cases hf : ctx.formats with
      | nil => exact absurd hf hfmt
      | cons a l => rfl
    simp [hne]

/-- Witness for C5: a single-format run where the export errors still closes
the document exactly once. -/
theorem visitFile_close_discipline_witness :
    ((⟨"p", 1, "f3d"⟩ : File).fileExtension = "f3d") ∧
    countClosed (visit_file (fun _ => false) ⟨["o"], [Format.F3D], []⟩
        ⟨"p", 1, "f3d"⟩ false).2 =
      countOpened (visit_file (fun _ => false) ⟨["o"], [Format.F3D], []⟩
        ⟨"p", 1, "f3d"⟩ false).2 ∧
    countClosed (visit_file (fun _ => false) ⟨["o"], [Format.F3D], []⟩
        ⟨"p", 1, "f3d"⟩ false).2 = 1 :=
  ⟨by decide,
    (visitFile_close_discipline (fun _ => false) ⟨["o"], [Format.F3D], []⟩
      ⟨"p", 1, "f3d"⟩ false (by decide)).1,
    (visitFile_close_discipline (fun _ => false) ⟨["o"], [Format.F3D], []⟩
      ⟨"p", 1, "f3d"⟩ false (by decide)).2.2 rfl (by decide)⟩

/-- Claim C6: a file whose extension is not 'f3d' yields exactly
`{skipped = 1, saved = 0, errored = 0}`, regardless of the requested formats
and the dry-run flag, and no document is ever opened for it. -/
theorem visitFile_ineligible_skip (eo : Format → Bool) (ctx : Ctx)
    (file : File) (dry : Bool) (hext : file.fileExtension ≠ "f3d") :
    visit_file eo ctx file dry = (⟨0, 1, 0⟩, []) ∧
    countOpened (visit_file eo ctx file dry).2 = 0 := by
  have h := visit_file_ineligible eo ctx file dry hext
  exact ⟨h, by rw [h]; rfl⟩

/-- Witness for C6. -/
theorem visitFile_ineligible_skip_witness :
    ((⟨"doc", 3, "step"⟩ : File).fileExtension ≠ "f3d") ∧
    visit_file (fun _ => true) ⟨["out"], [Format.F3D, Format.STEP], []⟩
        ⟨"doc", 3, "step"⟩ true = (⟨0, 1, 0⟩, []) ∧
    countOpened (visit_file (fun _ => true) ⟨["out"], [Format.F3D, Format.STEP], []⟩
        ⟨"doc", 3, "step"⟩ true).2 = 0 :=
  ⟨by decide,
    visitFile_ineligible_skip (fun _ => true) ⟨["out"], [Format.F3D, Format.STEP], []⟩
      ⟨"doc", 3, "step"⟩ true (by decide)⟩

/-- Claim C8: Counter merge (`+`, the embedding of `Counter.__add__`) is
commutative and associative and has the zero Counter as right identity. -/
theorem counter_merge_laws (a b c : Counter) :
    a + b = b + a ∧ a + b + c = a + (b + c) ∧ a + Counter.mk 0 0 0 = a :=
  ⟨counterAdd_comm a b, counterAdd_assoc a b c, counterAdd_zero a⟩

/-- Claim C3: in an uncancelled folder visitation, if one file's visitation
raises an unexpected exception, `visit_folder` counts it as exactly one
`errored` while the Counter still contains the correct `visit_file` results
of every sibling file and the correct results of every sub-folder. -/
theorem visitFolder_error_isolation (env : Env) (ctx : Ctx) (folder : Folder)
    (dry : Bool) (pre post : List File) (bad : File)
    (hc : env.wasCancelled = false)
    (hsplit : folder.dataFiles = pre ++ bad :: post)
    (hbad : env.fileRaises bad = true)
    (hpre : ∀ g ∈ pre, env.fileRaises g = false)
    (hpost : ∀ g ∈ post, env.fileRaises g = false) :
    (visit_folder env ctx folder dry).1 =
      sumCounters (pre.map fun g =>
          (visit_file (env.exportOk g) (ctx.extend (sanitize_filename folder.name)) g dry).1) +
        Counter.mk 0 0 1 +
        sumCounters (post.map fun g =>
          (visit_file (env.exportOk g) (ctx.extend (sanitize_filename folder.name)) g dry).1) +
        sumCounters (folder.dataFolders.map fun s =>
          (visit_folder env (ctx.extend (sanitize_filename folder.name)) s dry).1) := by
  have hmap : ∀ (l : List File), (∀ g ∈ l, env.fileRaises g = false) →
      l.map (fileContrib env (ctx.extend (sanitize_filename folder.name)) dry) =
        l.map fun g =>
          (visit_file (env.exportOk g) (ctx.extend (sanitize_filename folder.name)) g dry).1 := by
    intro l hl
    apply List.map_congr_left
    intro g hg
    simp [fileContrib, hl g hg]
  have hbadc : fileContrib env (ctx.extend (sanitize_filename folder.name)) dry bad =
      Counter.mk 0 0 1 := by
    simp [fileContrib, hbad]
  rw [visit_folder_counter env ctx folder dry hc, hsplit, List.map_append,
    List.map_cons, sumCounters_append, sumCounters_cons, hmap pre hpre,
    hmap post hpost, hbadc]
  simp [counterAdd_assoc]

/-- Witness for C3: folder with files [g, bad, h] where only `bad` raises;
the result is g's Counter, one errored, h's Counter, plus the sub-folder. -/
theorem visitFolder_error_isolation_witness :
    ((Env.mk (fun _ _ => true) (fun f => f.name == "bad") false).wasCancelled = false ∧
      (Folder.mk "d" [⟨"g", 1, "f3d"⟩, ⟨"bad", 1, "f3d"⟩, ⟨"h", 1, "txt"⟩]
          [Folder.mk "s" [⟨"k", 1, "f3d"⟩] []]).dataFiles =
        [⟨"g", 1, "f3d"⟩] ++ ⟨"bad", 1, "f3d"⟩ :: [⟨"h", 1, "txt"⟩] ∧
      (Env.mk (fun _ _ => true) (fun f => f.name == "bad") false).fileRaises
        ⟨"bad", 1, "f3d"⟩ = true) ∧
    (visit_folder ⟨fun _ _ => true, fun f => f.name == "bad", false⟩
        ⟨["o"], [Format.F3D], []⟩
        (Folder.mk "d" [⟨"g", 1, "f3d"⟩, ⟨"bad", 1, "f3d"⟩, ⟨"h", 1, "txt"⟩]
          [Folder.mk "s" [⟨"k", 1, "f3d"⟩] []]) false).1 =
      sumCounters (([⟨"g", 1, "f3d"⟩] : List File).map fun g =>
          (visit_file ((fun (_ : File) (_ : Format) => true) g)
            (Ctx.extend ⟨["o"], [Format.F3D], []⟩
              (sanitize_filename (Folder.name (Folder.mk "d"
                [⟨"g", 1, "f3d"⟩, ⟨"bad", 1, "f3d"⟩, ⟨"h", 1, "txt"⟩]
                [Folder.mk "s" [⟨"k", 1, "f3d"⟩] []])))) g false).1) +
        Counter.mk 0 0 1 +
        sumCounters (([⟨"h", 1, "txt"⟩] : List File).map fun g =>
          (visit_file ((fun (_ : File) (_ : Format) => true) g)
            (Ctx.extend ⟨["o"], [Format.F3D], []⟩
              (sanitize_filename (Folder.name (Folder.mk "d"
                [⟨"g", 1, "f3d"⟩, ⟨"bad", 1, "f3d"⟩, ⟨"h", 1, "txt"⟩]
                [Folder.mk "s" [⟨"k", 1, "f3d"⟩] []])))) g false).1) +
        sumCounters (((Folder.mk "d" [⟨"g", 1, "f3d"⟩, ⟨"bad", 1, "f3d"⟩, ⟨"h", 1, "txt"⟩]
            [Folder.mk "s" [⟨"k", 1, "f3d"⟩] []]).dataFolders).map fun s =>
          (visit_folder ⟨fun _ _ => true, fun f => f.name == "bad", false⟩
            (Ctx.extend ⟨["o"], [Format.F3D], []⟩
              (sanitize_filename (Folder.name (Folder.mk "d"
                [⟨"g", 1, "f3d"⟩, ⟨"bad", 1, "f3d"⟩, ⟨"h", 1, "txt"⟩]
                [Folder.mk "s" [⟨"k", 1, "f3d"⟩] []])))) s false).1) :=
  ⟨⟨by decide, by decide, by decide⟩,
    visitFolder_error_isolation ⟨fun _ _ => true, fun f => f.name == "bad", false⟩
      ⟨["o"], [Format.F3D], []⟩
      (Folder.mk "d" [⟨"g", 1, "f3d"⟩, ⟨"bad", 1, "f3d"⟩, ⟨"h", 1, "txt"⟩]
        [Folder.mk "s" [⟨"k", 1, "f3d"⟩] []])
      false [⟨"g", 1, "f3d"⟩] [⟨"h", 1, "txt"⟩] ⟨"bad", 1, "f3d"⟩
      (by decide) (by decide) (by decide) (by decide) (by decide)⟩

/-- Claim C7: `LazyDocument.open` is a no-op on an open handle; within one
`visit_file` of an eligible file the underlying open happens at most once;
and with an empty format list or with dry-run true it never happens at all
and the returned Counter is all zeros.  The open is triggered exactly by
the first real export attempt: a non-dry run with a nonempty format list
performs exactly one underlying open. -/
theorem lazyDocument_open_once (eo : Format → Bool) (ctx : Ctx) (file : File)
    (dry : Bool) (hext : file.fileExtension = "f3d") :
    (∀ d : LazyDocument, d.isOpen = true → d.openDoc = (d, [])) ∧
    countOpened (visit_file eo ctx file dry).2 ≤ 1 ∧
    ((ctx.formats = [] ∨ dry = true) →
      (visit_file eo ctx file dry).1 = ⟨0, 0, 0⟩ ∧
        countOpened (visit_file eo ctx file dry).2 = 0) ∧
    (dry = false → ctx.formats ≠ [] →
      countOpened (visit_file eo ctx file false).2 = 1) := by
  refine ⟨?_, ?_, ?_, ?_⟩
  · intro d hd
    cases d with
    | mk f o =>
      cases o
      · cases hd
      · simp [LazyDocument.openDoc]
  · rw [visit_file_opened eo ctx file dry hext]
    cases h : (dry || ctx.formats.isEmpty) <;> simp
  · intro h
    rcases h with hfmt | hdry
    · cases dry with
      | true =>
        rw [visit_file_dry eo ctx file hext]
        exact ⟨rfl, by simp [countOpened_map_message]⟩
      | false =>
        constructor
        · rw [visit_file_counter eo ctx file hext, hfmt]
          rfl
        · rw [visit_file_opened eo ctx file false hext, hfmt]
          rfl
    · subst hdry
      rw [visit_file_dry eo ctx file hext]
      exact ⟨rfl, by simp [countOpened_map_message]⟩
  · intro _ hfmt
    rw [visit_file_opened eo ctx file false hext]
    have hne : ctx.formats.isEmpty = false := by
      cases hf : ctx.formats with
      | nil => exact absurd hf hfmt
      | cons a l => rfl
    simp [hne]

/-- Witness for C7: an already-open handle is untouched by `open`; a
`visit_file` with an empty format list opens nothing and returns zeros. -/
theorem lazyDocument_open_once_witness :
    ((⟨"p", 1, "f3d"⟩ : File).fileExtension = "f3d") ∧
    (LazyDocument.mk ⟨"p", 1, "f3d"⟩ true).openDoc =
      (LazyDocument.mk ⟨"p", 1, "f3d"⟩ true, []) ∧
    countOpened (visit_file (fun _ => true) ⟨["o"], [], []⟩
        ⟨"p", 1, "f3d"⟩ false).2 ≤ 1 ∧
    ((visit_file (fun _ => true) ⟨["o"], [], []⟩ ⟨"p", 1, "f3d"⟩ false).1 =
        ⟨0, 0, 0⟩ ∧
      countOpened (visit_file (fun _ => true) ⟨["o"], [], []⟩
        ⟨"p", 1, "f3d"⟩ false).2 = 0) :=
  ⟨by decide,
    (lazyDocument_open_once (fun _ => true) ⟨["o"], [], []⟩ ⟨"p", 1, "f3d"⟩ false
      (by decide)).1 (LazyDocument.mk ⟨"p", 1, "f3d"⟩ true) rfl,
    (lazyDocument_open_once (fun _ => true) ⟨["o"], [], []⟩ ⟨"p", 1, "f3d"⟩ false
      (by decide)).2.1,
    (lazyDocument_open_once (fun _ => true) ⟨["o"], [], []⟩ ⟨"p", 1, "f3d"⟩ false
      (by decide)).2.2.1 (Or.inl rfl)⟩

/-- Claim C9: `main` processes at most one project: among the available
projects, only the first whose name is selected is visited — the result does
not depend on later projects, even ones whose names are also selected — and
the returned Counter is that first match's top-level folder sum. -/
theorem main_first_matching_project_only (env : Env) (ctx : Ctx)
    (pre post : List DataProject) (p : DataProject)
    (hp : p.name ∈ ctx.projects)
    (hpre : ∀ q ∈ pre, q.name ∉ ctx.projects) :
    Exporter.main env ctx (pre ++ p :: post) = Exporter.main env ctx (pre ++ [p]) ∧
    (Exporter.main env ctx (pre ++ p :: post)).1 =
      (visit_subfolders env ctx false p.rootFolders ⟨0, 0, 0⟩).1 := by
  have main_eq : ∀ dps, Exporter.main env ctx dps = mainLoop env ctx dps :=
    fun _ => rfl
  revert hpre
  induction pre with
  | nil =>
    intro _
    refine ⟨?_, ?_⟩
    · rw [List.nil_append, List.nil_append, main_eq, main_eq,
        mainLoop_match env ctx p post hp, mainLoop_match env ctx p [] hp]
    · rw [List.nil_append, main_eq, mainLoop_match env ctx p post hp]
  | cons q rest ih =>
    intro hpre
    have hq : q.name ∉ ctx.projects := hpre q (List.mem_cons_self q rest)
    have ih' := ih fun r hr => hpre r (List.mem_cons_of_mem q hr)
    refine ⟨?_, ?_⟩
    · rw [List.cons_append, List.cons_append, main_eq, main_eq,
        mainLoop_skip env ctx q _ hq, mainLoop_skip env ctx q _ hq,
        ← main_eq, ← main_eq]
      exact ih'.1
    · rw [List.cons_append, main_eq, mainLoop_skip env ctx q _ hq, ← main_eq]
      exact ih'.2

/-- Witness for C9: two projects named "proj" are both selected; the run's
result equals the run without the second one, whose folders stay untouched. -/
theorem main_first_matching_project_only_witness :
    ((⟨"proj", []⟩ : DataProject).name ∈ (Ctx.mk [] [Format.F3D] ["proj"]).projects ∧
      (∀ q ∈ ([⟨"other", []⟩] : List DataProject),
        q.name ∉ (Ctx.mk [] [Format.F3D] ["proj"]).projects)) ∧
    Exporter.main ⟨fun _ _ => true, fun _ => false, false⟩ ⟨[], [Format.F3D], ["proj"]⟩
        ([⟨"other", []⟩] ++ ⟨"proj", []⟩ ::
          [⟨"proj", [Folder.mk "f" [⟨"a", 1, "f3d"⟩] []]⟩]) =
      Exporter.main ⟨fun _ _ => true, fun _ => false, false⟩ ⟨[], [Format.F3D], ["proj"]⟩
        ([⟨"other", []⟩] ++ [⟨"proj", []⟩]) ∧
    (Exporter.main ⟨fun _ _ => true, fun _ => false, false⟩ ⟨[], [Format.F3D], ["proj"]⟩
        ([⟨"other", []⟩] ++ ⟨"proj", []⟩ ::
          [⟨"proj", [Folder.mk "f" [⟨"a", 1, "f3d"⟩] []]⟩])).1 =
      (visit_subfolders ⟨fun _ _ => true, fun _ => false, false⟩
        ⟨[], [Format.F3D], ["proj"]⟩ false
        (DataProject.mk "proj" []).rootFolders ⟨0, 0, 0⟩).1 :=
  ⟨⟨by decide, by decide⟩,
    (main_first_matching_project_only ⟨fun _ _ => true, fun _ => false, false⟩
      ⟨[], [Format.F3D], ["proj"]⟩ [⟨"other", []⟩]
      [⟨"proj", [Folder.mk "f" [⟨"a", 1, "f3d"⟩] []]⟩] ⟨"proj", []⟩
      (by decide) (by decide)).1,
    (main_first_matching_project_only ⟨fun _ _ => true, fun _ => false, false⟩
      ⟨[], [Format.F3D], ["proj"]⟩ [⟨"other", []⟩]
      [⟨"proj", [Folder.mk "f" [⟨"a", 1, "f3d"⟩] []]⟩] ⟨"proj", []⟩
      (by decide) (by decide)).2⟩

/-- Claim C10: `main` hardcodes the dry-run flag to false — it coincides
with the flag-generalized orchestrator applied to `false` on every input —
and the flag is not vacuous: on a project with one eligible file the
dry-run run and the real run differ. -/
theorem main_hardcodes_dry_run_false :
    (∀ (env : Env) (ctx : Ctx) (dps : List DataProject),
        Exporter.main env ctx dps = mainWithFlag env ctx dps false) ∧
    mainWithFlag ⟨fun _ _ => true, fun _ => false, false⟩ ⟨[], [Format.F3D], ["p"]⟩
        [⟨"p", [Folder.mk "f" [⟨"a", 1, "f3d"⟩] []]⟩] true ≠
      mainWithFlag ⟨fun _ _ => true, fun _ => false, false⟩ ⟨[], [Format.F3D], ["p"]⟩
        [⟨"p", [Folder.mk "f" [⟨"a", 1, "f3d"⟩] []]⟩] false := by
  constructor
  · intro env ctx dps
    exact mainLoop_eq_flag env ctx dps
  · decide
